import Mathlib

/-!
Verification development for the data-mapping layer of the `ethercat` crate:
the field codec (`src/field.rs`), the requirement registry and the mapping
resolver (`src/config.rs`), and the SDO addressing types (`src/types.rs`).

Machine integers are modelled as `Nat` (a value of a fixed-width type is its
little-endian bit pattern, a natural number below `256 ^ byte-width`); byte
buffers are `List Nat`; Rust `HashMap`/`HashSet` containers are modelled as
association lists / lists **in their iteration order** (std hash containers
iterate in an order that is randomized per process, so the list order is an
explicit parameter of the model); a Rust panic (failed `assert!`,
`unimplemented!`, `unwrap` on `None`, slice-length mismatch) is modelled as
an explicit failure outcome (`Option.none` or a dedicated constructor).
-/

namespace Ethercat

/-! ## Field codec (src/field.rs) -/

/-- mirror of `TypeId` (field.rs lines 44-50). -/
inductive TypeId
| CUSTOM
| BOOL
| I8
| I16
| I32
| U8
| U16
| U32
| F32
| F64
deriving DecidableEq

/-- the closed set of primitive types that implement the `DType` trait in
field.rs (f32, f64, u32, u16, u8, i32, i16, i8).  A value of such a type is
modelled by its little-endian bit pattern, a `Nat` below `256 ^ size`. -/
inductive DTy
| f32
| f64
| u32
| u16
| u8
| i32
| i16
| i8
deriving DecidableEq

/-- `std::mem::size_of::<T>()` for each supported type: the byte width. -/
def DTy.size : DTy → Nat
| .f32 => 4
| .f64 => 8
| .u32 => 4
| .u16 => 2
| .u8 => 1
| .i32 => 4
| .i16 => 2
| .i8 => 1

/-- `T::id()` for each `DType` impl in field.rs. -/
def DTy.id : DTy → TypeId
| .f32 => .F32
| .f64 => .F64
| .u32 => .U32
| .u16 => .U16
| .u8 => .U8
| .i32 => .I32
| .i16 => .I16
| .i8 => .I8

/-- mirror of `Field<T>` (field.rs lines 8-17): byte offset, bit offset in the
start byte, and bit length.  The phantom type parameter of the Rust struct is
passed separately as a `DTy` argument to `get`/`set`. -/
structure DField where
  byte : Nat
  bit : Nat
  bitlen : Nat
deriving DecidableEq

/-- `T::to_le_bytes` on the bit pattern: the `n` little-endian bytes of `v`. -/
def toLeBytes : Nat → Nat → List Nat
| 0, _ => []
| n + 1, v => v % 256 :: toLeBytes n (v / 256)

/-- `T::from_le_bytes`: recompose a little-endian byte list into a pattern. -/
def fromLeBytes : List Nat → Nat
| [] => 0
| b :: bs => b + 256 * fromLeBytes bs

/-- mirror of `from_dfield` (field.rs; every impl is identical up to `Self`):
assert `field.bit == 0`, assert `field.bitlen == size_of::<Self>()`, then
`Self::from_le_bytes(data[field.byte..].try_into().expect(..))`.  Slicing
needs `field.byte <= data.len()` and the `try_into` to the fixed-size array
needs the suffix length to be exactly `size_of::<Self>()`; together this is
`data.len() = field.byte + size`.  `none` models the panic. -/
def from_dfield (t : DTy) (f : DField) (data : List Nat) : Option Nat :=
  if f.bit = 0 ∧ f.bitlen = t.size ∧ data.length = f.byte + t.size then
    some (fromLeBytes (data.drop f.byte))
  else
    none

/-- mirror of `to_dfield` (field.rs): same asserts, then
`data[field.byte..].copy_from_slice(&self.to_le_bytes())`, which panics
unless the suffix length equals `size_of::<Self>()`.  `none` models the
panic; `some` returns the updated buffer. -/
def to_dfield (t : DTy) (v : Nat) (f : DField) (data : List Nat) : Option (List Nat) :=
  if f.bit = 0 ∧ f.bitlen = t.size ∧ data.length = f.byte + t.size then
    some (data.take f.byte ++ toLeBytes t.size v)
  else
    none

/-- `Field::get` (field.rs line 24): `T::from_dfield(self, data)`. -/
def DField.get (t : DTy) (f : DField) (data : List Nat) : Option Nat :=
  from_dfield t f data

/-- `Field::set` (field.rs line 26): `value.to_dfield(self, data)`. -/
def DField.set (t : DTy) (f : DField) (data : List Nat) (v : Nat) : Option (List Nat) :=
  to_dfield t v f data

theorem toLeBytes_length (n v : Nat) : (toLeBytes n v).length = n := by
  induction n generalizing v with
  | zero => rfl
  | succ n ih => simp [toLeBytes, ih]

theorem fromLeBytes_toLeBytes (n v : Nat) :
    fromLeBytes (toLeBytes n v) = v % 256 ^ n := by
  induction n generalizing v with
  | zero => simp [toLeBytes, fromLeBytes, Nat.mod_one]
  | succ n ih =>
      rw [toLeBytes, fromLeBytes, ih, pow_succ, mul_comm (256 ^ n) 256, Nat.mod_mul]

/-! ## SDO addressing (src/types.rs) -/

/-- mirror of `SdoItem` (types.rs lines 374-380): a sub-index (`u8`, modelled
as `Nat`) or complete access to the whole SDO. -/
inductive SdoItem
| Sub (i : Nat)
| Complete
deriving DecidableEq

/-- mirror of `SdoItem::unwrap` (types.rs lines 392-397). -/
def SdoItem.unwrap : SdoItem → Nat
| .Sub i => i
| .Complete => 0

/-- mirror of `SdoItem::is_complete` (types.rs lines 398-403). -/
def SdoItem.is_complete : SdoItem → Bool
| .Sub _ => false
| .Complete => true

/-- mirror of `Sdo` (types.rs lines 366-372): dictionary index (`u16`) plus
the accessed part. -/
structure Sdo where
  index : Nat
  sub : SdoItem
deriving DecidableEq

/-- `Sdo::complete` (types.rs line 383). -/
def Sdo.complete (index : Nat) : Sdo := ⟨index, .Complete⟩

/-- `Sdo.subitem` (types.rs line 387). -/
def Sdo.subitem (index : Nat) (sub : Nat) : Sdo := ⟨index, .Sub sub⟩

/-- C10.  `SdoItem::unwrap` is total (one match arm per constructor, no
panicking arm): it returns `i` on `Sub i` and `0` on `Complete`, so after
`unwrap` a `Complete` address is indistinguishable from `Sub 0`; and
`is_complete` returns `true` exactly on `Complete`. -/
theorem sdoitem_unwrap_is_complete :
    (∀ i : Nat, (SdoItem.Sub i).unwrap = i) ∧
    SdoItem.Complete.unwrap = 0 ∧
    SdoItem.Complete.unwrap = (SdoItem.Sub 0).unwrap ∧
    (∀ s : SdoItem, s.is_complete = true ↔ s = SdoItem.Complete) := by
  refine ⟨fun i => rfl, rfl, rfl, fun s => ?_⟩
  cases s <;> simp [SdoItem.is_complete]

theorem set_buffer_length (t : DTy) (v : Nat) (f : DField) (data : List Nat)
    (hlen : data.length = f.byte + t.size) :
    (data.take f.byte ++ toLeBytes t.size v).length = f.byte + t.size := by
  simp [toLeBytes_length, hlen]

/-- C1.  Codec round-trip: for every supported primitive type, every value of
that type (a bit pattern below `256 ^ width`), every field with bit offset 0
whose bit length passes the codec's width check (`bitlen = size_of`), and
every buffer satisfying the codec's length precondition
(`len = byte + size_of`, the condition under which the slice-to-array
conversions succeed), `set` followed by `get` returns the value bit-for-bit. -/
theorem codec_roundtrip (t : DTy) (f : DField) (v : Nat) (data : List Nat)
    (hbit : f.bit = 0) (hwidth : f.bitlen = t.size)
    (hlen : data.length = f.byte + t.size) (hv : v < 256 ^ t.size) :
    (DField.set t f data v).bind (DField.get t f) = some v := by
  have hb : f.byte ≤ data.length := by omega
  have hset : DField.set t f data v = some (data.take f.byte ++ toLeBytes t.size v) := by
    simp [DField.set, to_dfield, hbit, hwidth, hlen]
  rw [hset, Option.some_bind]
  have hlen2 := set_buffer_length t v f data hlen
  have htake : (data.take f.byte).length = f.byte := by
    simp [List.length_take, Nat.min_eq_left hb]
  have hdrop : (data.take f.byte ++ toLeBytes t.size v).drop f.byte = toLeBytes t.size v :=
    List.drop_left' htake
  simp [DField.get, from_dfield, hbit, hwidth, hlen2, hdrop,
    fromLeBytes_toLeBytes, Nat.mod_eq_of_lt hv]

/-- witness for C1: a concrete u32 round-trip at byte offset 2. -/
theorem codec_roundtrip_witness :
    (DField.set .u32 ⟨2, 0, 4⟩ [9, 9, 9, 9, 9, 9] 3735928559).bind
      (DField.get .u32 ⟨2, 0, 4⟩) = some 3735928559 :=
  codec_roundtrip .u32 ⟨2, 0, 4⟩ 3735928559 [9, 9, 9, 9, 9, 9]
    rfl rfl rfl (by decide)

/-- C9 counterexample: a buffer strictly longer than `byte + size_of` (length
5 ≥ 0 + 4) makes both `get` and `set` fail (slice-length panic), although the
field has bit offset 0 and passes the width check; the claim says only a
shorter buffer is a length violation. -/
theorem codec_longer_buffer_fails :
    4 ≤ ([1, 2, 3, 4, 5] : List Nat).length ∧
    DField.get .u32 ⟨0, 0, 4⟩ [1, 2, 3, 4, 5] = none ∧
    DField.set .u32 ⟨0, 0, 4⟩ [1, 2, 3, 4, 5] 7 = none := by
  refine ⟨by decide, ?_, ?_⟩ <;> decide

/-- C9 (amended).  For every supported type and every field with bit offset 0
and bit length passing the width check, `get` and `set` complete without
contract failure exactly when the buffer length equals `field.byte` plus the
byte width of the type: both shorter and longer buffers are contract
failures, because the codec transcribes against the whole buffer suffix
starting at `field.byte`. -/
theorem codec_length_exact (t : DTy) (f : DField) (data : List Nat) (v : Nat)
    (hbit : f.bit = 0) (hwidth : f.bitlen = t.size) :
    ((DField.get t f data).isSome ↔ data.length = f.byte + t.size) ∧
    ((DField.set t f data v).isSome ↔ data.length = f.byte + t.size) := by
  constructor
  · simp only [DField.get, from_dfield, hbit, hwidth, true_and]
    split <;> simp_all
  · simp only [DField.set, to_dfield, hbit, hwidth, true_and]
    split <;> simp_all

/-- witness for C9's amended theorem at a concrete u16 field and buffers of
the exact and of a larger length. -/
theorem codec_length_exact_witness :
    ((DField.get .u16 ⟨1, 0, 2⟩ [5, 6, 7]).isSome ↔
      ([5, 6, 7] : List Nat).length = 1 + 2) ∧
    ((DField.set .u16 ⟨1, 0, 2⟩ [5, 6, 7] 300).isSome ↔
      ([5, 6, 7] : List Nat).length = 1 + 2) :=
  codec_length_exact .u16 ⟨1, 0, 2⟩ [5, 6, 7] 300 rfl rfl

/-! ## Requirement registry (src/config.rs, `MasterConfigurator::require`) -/

/-- mirror of `SyncDirection` (types.rs lines 200-205). -/
inductive SyncDirection
| Invalid
| Output
| Input
deriving DecidableEq

/-- mirror of `ConfigEntry` (config.rs lines 33-38), restricted to the two
requirement lists mutated by `require` (`offsets` is only written by
`resolve`, which never completes, and read by `request`; it is modelled
separately for `request`). -/
structure ConfigEntry where
  inputs : List Sdo
  outputs : List Sdo
deriving DecidableEq

/-- the registry `entries: HashMap<u16, ConfigEntry>` as an association list
in iteration order; keys are unique. -/
abbrev Registry := List (Nat × ConfigEntry)

/-- `HashMap` key lookup on the association list. -/
def lookupEntry : Registry → Nat → Option ConfigEntry
| [], _ => none
| (k, e) :: rest, s => if k = s then some e else lookupEntry rest s

/-- `self.entries.entry(slave).or_insert_with(|| ConfigEntry::default())`
(config.rs lines 52-54): keep an existing entry, otherwise insert the
default (two empty lists). -/
def orInsertDefault : Registry → Nat → Registry
| [], s => [(s, ⟨[], []⟩)]
| (k, e) :: rest, s =>
  if k = s then (k, e) :: rest else (k, e) :: orInsertDefault rest s

/-- in-place update of the entry at a present key. -/
def modifyEntry : Registry → Nat → (ConfigEntry → ConfigEntry) → Registry
| [], _, _ => []
| (k, e) :: rest, s, g =>
  if k = s then (k, g e) :: rest else (k, e) :: modifyEntry rest s g

/-- the per-device output list recorded for a device (empty when absent). -/
def recordedOutputs (entries : Registry) (slave : Nat) : List Sdo :=
  ((lookupEntry entries slave).getD ⟨[], []⟩).outputs

/-- the per-device input list recorded for a device (empty when absent). -/
def recordedInputs (entries : Registry) (slave : Nat) : List Sdo :=
  ((lookupEntry entries slave).getD ⟨[], []⟩).inputs

/-- the state transition of `require(slave, sdo, Output)`: push onto the
entry's `outputs` vector (config.rs line 56). -/
def requireOutput (entries : Registry) (slave : Nat) (sdo : Sdo) : Registry :=
  modifyEntry (orInsertDefault entries slave) slave
    (fun e => { e with outputs := e.outputs ++ [sdo] })

/-- the state transition of `require(slave, sdo, Input)`: push onto the
entry's `inputs` vector (config.rs line 57). -/
def requireInput (entries : Registry) (slave : Nat) (sdo : Sdo) : Registry :=
  modifyEntry (orInsertDefault entries slave) slave
    (fun e => { e with inputs := e.inputs ++ [sdo] })

/-- mirror of `MasterConfigurator::require` (config.rs lines 51-60): first
get-or-insert the device's entry, then push the sdo onto the list of the
given direction; the `Invalid` arm is `unimplemented!(..)`, a panic, modelled
as `Except.error` carrying the registry state at the panic point (the
get-or-insert mutation has already happened and persists across the
unwind). -/
def require (entries : Registry) (slave : Nat) (sdo : Sdo) (direction : SyncDirection) :
    Except Registry Registry :=
  match direction with
  | .Output => .ok (requireOutput entries slave sdo)
  | .Input => .ok (requireInput entries slave sdo)
  | .Invalid => .error (orInsertDefault entries slave)

theorem lookupEntry_orInsertDefault (entries : Registry) (s s' : Nat) :
    lookupEntry (orInsertDefault entries s) s' =
      if s' = s then some ((lookupEntry entries s).getD ⟨[], []⟩)
      else lookupEntry entries s' := by
  induction entries with
  | nil =>
      by_cases h : s' = s
      · simp [orInsertDefault, lookupEntry, h]
      · have h2 : ¬ s = s' := fun hh => h hh.symm
        simp [orInsertDefault, lookupEntry, h, h2]
  | cons p rest ih =>
      obtain ⟨k, e⟩ := p
      by_cases hk : k = s
      · subst hk
        by_cases h : s' = k
        · subst h
          simp [orInsertDefault, lookupEntry]
        · have h2 : ¬ k = s' := fun hh => h hh.symm
          simp [orInsertDefault, lookupEntry, h, h2]
      · by_cases h : k = s'
        · subst h
          simp [orInsertDefault, lookupEntry, hk]
        · simp [orInsertDefault, lookupEntry, hk, h, ih]

theorem lookupEntry_modifyEntry (entries : Registry) (s s' : Nat)
    (g : ConfigEntry → ConfigEntry) :
    lookupEntry (modifyEntry entries s g) s' =
      if s' = s then (lookupEntry entries s).map g
      else lookupEntry entries s' := by
  induction entries with
  | nil => simp [modifyEntry, lookupEntry]
  | cons p rest ih =>
      obtain ⟨k, e⟩ := p
      by_cases hk : k = s
      · subst hk
        by_cases h : s' = k
        · subst h
          simp [modifyEntry, lookupEntry]
        · have h2 : ¬ k = s' := fun hh => h hh.symm
          simp [modifyEntry, lookupEntry, h, h2]
      · by_cases h : k = s'
        · subst h
          simp [modifyEntry, lookupEntry, hk]
        · simp [modifyEntry, lookupEntry, hk, h, ih]

theorem recordedOutputs_requireOutput (entries : Registry) (slave : Nat) (sdo : Sdo) :
    recordedOutputs (requireOutput entries slave sdo) slave =
      recordedOutputs entries slave ++ [sdo] := by
  simp [recordedOutputs, requireOutput, lookupEntry_modifyEntry, lookupEntry_orInsertDefault]

theorem recordedInputs_requireInput (entries : Registry) (slave : Nat) (sdo : Sdo) :
    recordedInputs (requireInput entries slave sdo) slave =
      recordedInputs entries slave ++ [sdo] := by
  simp [recordedInputs, requireInput, lookupEntry_modifyEntry, lookupEntry_orInsertDefault]

/-- C7 counterexample: on a previously empty registry, `require` with the
`Invalid` direction does not return a result at all — it panics
(`unimplemented!`), the code has no `InvalidDirection` error value — and the
registry at the failure point is not the initial registry: a fresh empty
entry for device 0 was inserted by the get-or-insert before the panic. -/
theorem require_invalid_mutates_registry :
    require [] 0 (Sdo.subitem 24640 0) .Invalid = .error [(0, ⟨[], []⟩)] ∧
    ([(0, (⟨[], []⟩ : ConfigEntry))] : Registry) ≠ [] := by
  exact ⟨rfl, by decide⟩

/-- C7 (amended).  Calling `require` with the unspecified (`Invalid`)
direction panics via `unimplemented!` instead of returning an
`InvalidDirection` error (no such error type exists in the code); the sdo is
recorded in neither direction list — every device's recorded input and
output requirements are unchanged — but the registry itself is mutated
before the panic when the device had no entry yet: the get-or-insert
inserts an empty entry for it. -/
theorem require_invalid_panics (entries : Registry) (slave : Nat) (sdo : Sdo) :
    require entries slave sdo .Invalid = .error (orInsertDefault entries slave) ∧
    (∀ s : Nat,
      recordedOutputs (orInsertDefault entries slave) s = recordedOutputs entries s ∧
      recordedInputs (orInsertDefault entries slave) s = recordedInputs entries s) := by
  refine ⟨rfl, fun s => ?_⟩
  by_cases h : s = slave
  · subst h
    simp [recordedOutputs, recordedInputs, lookupEntry_orInsertDefault]
  · simp [recordedOutputs, recordedInputs, lookupEntry_orInsertDefault, h]

/-- C8 counterexample: two identical `require(0, sdo, Output)` calls on an
empty registry leave the output list `[sdo, sdo]`, while a single call
leaves `[sdo]`; the two states differ, so the repeated call does change the
registry. -/
theorem require_not_idempotent :
    require [] 0 (Sdo.subitem 24640 0) .Output =
      .ok [(0, ⟨[], [Sdo.subitem 24640 0]⟩)] ∧
    require [(0, ⟨[], [Sdo.subitem 24640 0]⟩)] 0 (Sdo.subitem 24640 0) .Output =
      .ok [(0, ⟨[], [Sdo.subitem 24640 0, Sdo.subitem 24640 0]⟩)] ∧
    ([(0, (⟨[], [Sdo.subitem 24640 0, Sdo.subitem 24640 0]⟩ : ConfigEntry))] : Registry) ≠
      [(0, ⟨[], [Sdo.subitem 24640 0]⟩)] := by
  refine ⟨rfl, rfl, by decide⟩

/-- C8 (amended).  `require` appends the sdo to the per-device direction list
on every call: for either valid direction, a second identical call appends a
second copy, so the registry after two calls holds the sdo twice and differs
from the registry after one call — `require` is not idempotent. -/
theorem require_second_call_duplicates (entries : Registry) (slave : Nat) (sdo : Sdo) :
    require entries slave sdo .Output = .ok (requireOutput entries slave sdo) ∧
    recordedOutputs (requireOutput (requireOutput entries slave sdo) slave sdo) slave =
      recordedOutputs entries slave ++ [sdo, sdo] ∧
    requireOutput (requireOutput entries slave sdo) slave sdo ≠
      requireOutput entries slave sdo ∧
    require entries slave sdo .Input = .ok (requireInput entries slave sdo) ∧
    recordedInputs (requireInput (requireInput entries slave sdo) slave sdo) slave =
      recordedInputs entries slave ++ [sdo, sdo] ∧
    requireInput (requireInput entries slave sdo) slave sdo ≠
      requireInput entries slave sdo := by
  refine ⟨rfl, ?_, ?_, rfl, ?_, ?_⟩
  · rw [recordedOutputs_requireOutput, recordedOutputs_requireOutput]
    simp
  · intro h
    have h2 := congrArg (fun st => (recordedOutputs st slave).length) h
    simp only [recordedOutputs_requireOutput] at h2
    simp at h2
  · rw [recordedInputs_requireInput, recordedInputs_requireInput]
    simp
  · intro h
    have h2 := congrArg (fun st => (recordedInputs st slave).length) h
    simp only [recordedInputs_requireInput] at h2
    simp at h2

/-! ## Mapping resolver (src/config.rs, `MasterConfigurator::solve`)

`solve(mapping, configurable, entries)` works on
`mapping.pdos: HashMap<u16, Vec<Sdo>>` and
`mapping.syncs: HashMap<u8, Vec<u16>>`, a `configurable: HashSet<u16>` and
the required `entries: &[Sdo]`.  Hash containers are modelled as lists in
their iteration order: `pdosIter : List (Nat × List Sdo)`,
`cfgIter : List Nat`, and the `reached` map built from `entries` as
`reachedIter : List (Sdo × Bool)`; two different iteration orders of the same
logical map are two admissible runs of the same program on the same input,
because the std hash containers randomize their order per process.  The
sync-manager map carries each `Vec`'s capacity: `(id, capacity, contents)`. -/

/-- mirror of `MappingError` (config.rs lines 12-17). -/
inductive MappingError
| LackOfPdo
| LackOfSync
deriving DecidableEq

/-- `reached.get(entry)` on the modelled `HashMap<Sdo, bool>`. -/
def reachedGet : List (Sdo × Bool) → Sdo → Option Bool
| [], _ => none
| (k, b) :: rest, e => if k = e then some b else reachedGet rest e

/-- `HashSet::insert` on the modelled `used` set (kept in insertion order). -/
def insertSet (used : List Nat) (p : Nat) : List Nat :=
  if used.contains p then used else used ++ [p]

/-- `Iterator::max_by_key` semantics: among the elements of the list, one
with the maximal key, and on ties the **last** such element in iteration
order; `none` on an empty list. -/
def maxByKeyLast (key : α → Nat) : List α → Option α
| [] => none
| a :: rest =>
  match maxByKeyLast key rest with
  | none => some a
  | some b => if key b < key a then some a else some b

/-- the selection expression of the phase-1 loop (config.rs lines 144-150):
over the pdos map in iteration order, keep the non-configurable ones and take
`max_by_key` of `entries.iter().map(|entry| reached.get(entry) ==
Some(&false)).count()` — note the source maps each entry to a boolean and
then counts **all** of them, so the key is just the entry count. -/
def phase1Select (pdosIter : List (Nat × List Sdo)) (cfgIter : List Nat)
    (reached : List (Sdo × Bool)) : Option (Nat × List Sdo) :=
  maxByKeyLast
    (fun pe => ((pe.2.map (fun entry => reachedGet reached entry = some false)).length))
    (pdosIter.filter (fun pe => ¬ cfgIter.contains pe.1))

/-- one iteration of the phase-1 `while let` loop (config.rs lines 144-152):
if the selection yields a pdo, the body inserts it into `used` and the loop
continues (`some` new used-set); if the selection is empty the loop exits
(`none`).  Nothing else changes: `reached` is never updated and used pdos
are not excluded from later selections. -/
def phase1Step (pdosIter : List (Nat × List Sdo)) (cfgIter : List Nat)
    (reached : List (Sdo × Bool)) (used : List Nat) : Option (List Nat) :=
  (phase1Select pdosIter cfgIter reached).map (fun pe => insertSet used pe.1)

/-- the phase-1 loop with explicit fuel: `some used` when the loop exits by
itself within `fuel` iterations, `none` when the fuel runs out (the loop is
still running). -/
def phase1Loop (pdosIter : List (Nat × List Sdo)) (cfgIter : List Nat)
    (reached : List (Sdo × Bool)) : Nat → List Nat → Option (List Nat)
| 0, _ => none
| fuel + 1, used =>
  match phase1Step pdosIter cfgIter reached used with
  | some used2 => phase1Loop pdosIter cfgIter reached fuel used2
  | none => some used

/-- the inner loop of phase 2 (config.rs lines 157-165): overwrite the slots
of one configurable pdo's `Vec` in place with items pulled from the pending
iterator, stopping when either runs out; returns the new slot vector and the
unconsumed pending items.  Slots beyond the pending items keep their old
content. -/
def fillSlots : List Sdo → List Sdo → List Sdo × List Sdo
| slots, [] => (slots, [])
| [], pending => ([], pending)
| _ :: slots, p :: pending =>
  let r := fillSlots slots pending
  (p :: r.1, r.2)

/-- `mapping.pdos.get_mut(pdo)` lookup. -/
def lookupPdo : List (Nat × List Sdo) → Nat → Option (List Sdo)
| [], _ => none
| (k, v) :: rest, p => if k = p then some v else lookupPdo rest p

/-- write back one pdo's slot vector into the map. -/
def setPdo : List (Nat × List Sdo) → Nat → List Sdo → List (Nat × List Sdo)
| [], _, _ => []
| (k, v) :: rest, p, slots =>
  if k = p then (k, slots) :: rest else (k, v) :: setPdo rest p slots

/-- phase 2 of `solve` (config.rs lines 155-166): walk the configurable set
in iteration order; for each pdo, `mapping.pdos.get_mut(pdo).unwrap()` (a
panic, modelled `none`, when the pdo is missing from the map), then fill its
slots from the pending iterator, inserting the pdo into `used` once at least
one item is assigned to it; when the iterator returns `None` mid-pdo the
labelled `break 'assign` leaves both loops, so later configurable pdos are
neither unwrapped nor filled. -/
def phase2 : List Nat → List (Nat × List Sdo) → List Sdo → List Nat →
    Option (List (Nat × List Sdo) × List Sdo × List Nat)
| [], pdosIter, pending, used => some (pdosIter, pending, used)
| p :: cfgRest, pdosIter, pending, used =>
  match lookupPdo pdosIter p with
  | none => none
  | some slots =>
    let filled := fillSlots slots pending
    let pdos2 := setPdo pdosIter p filled.1
    let used2 := if slots ≠ [] ∧ pending ≠ [] then insertSet used p else used
    if pending.length < slots.length then
      some (pdos2, filled.2, used2)
    else
      phase2 cfgRest pdos2 filled.2 used2

/-- phase 3 of `solve` (config.rs lines 170-178): walk the sync-manager map
in iteration order; each sync manager receives `0 .. capacity` pushes from
the used-pdos iterator; `break 'assign` when the iterator runs out mid-sync.
Returns the updated syncs and the pdos left unassigned. -/
def phase3 : List (Nat × Nat × List Nat) → List Nat →
    List (Nat × Nat × List Nat) × List Nat
| [], rem => ([], rem)
| (id, cap, content) :: syncs, rem =>
  if cap ≤ rem.length then
    let r := phase3 syncs (rem.drop cap)
    ((id, cap, content ++ rem.take cap) :: r.1, r.2)
  else
    ((id, cap, content ++ rem) :: syncs, [])

/-- outcome of one run of `solve`. -/
inductive Outcome
| diverge
| crashed
| failure (e : MappingError)
| ok (used : List Nat) (pdos : List (Nat × List Sdo)) (syncs : List (Nat × Nat × List Nat))
deriving DecidableEq

/-- mirror of `MasterConfigurator::solve` (config.rs lines 132-182), with the
hash containers given in iteration order and the phase-1 loop bounded by
`fuel`: build `reached` from the required entries (all unreached), run the
phase-1 selection loop, then assign the still-pending items to configurable
pdos (`LackOfPdo` when items remain), then assign the used pdos to sync
managers (`LackOfSync` when pdos remain).  `.diverge` = the phase-1 loop was
still running after `fuel` iterations; `.crashed` = the `unwrap` panic of
phase 2. -/
def solveWith (fuel : Nat) (pdosIter : List (Nat × List Sdo)) (cfgIter : List Nat)
    (syncsIter : List (Nat × Nat × List Nat)) (reachedIter : List Sdo) : Outcome :=
  let reached := reachedIter.map (fun e => (e, false))
  match phase1Loop pdosIter cfgIter reached fuel [] with
  | none => .diverge
  | some used1 =>
    let pending := (reached.filter (fun pr => pr.2 = false)).map (fun pr => pr.1)
    match phase2 cfgIter pdosIter pending used1 with
    | none => .crashed
    | some (pdos2, remaining, used2) =>
      if remaining ≠ [] then .failure .LackOfPdo
      else
        let r3 := phase3 syncsIter used2
        if r3.2 ≠ [] then .failure .LackOfSync
        else .ok used2 pdos2 r3.1

/-- whenever the phase-1 selection yields a candidate, it yields the same
candidate forever: the loop body changes only `used`, which the selection
does not read, so the loop never exits on its own. -/
theorem phase1Loop_none_of_select_isSome (pdosIter : List (Nat × List Sdo))
    (cfgIter : List Nat) (reached : List (Sdo × Bool))
    (h : (phase1Select pdosIter cfgIter reached).isSome) :
    ∀ fuel used, phase1Loop pdosIter cfgIter reached fuel used = none := by
  intro fuel
  induction fuel with
  | zero => intro used; rfl
  | succ n ih =>
      intro used
      obtain ⟨pe, hpe⟩ := Option.isSome_iff_exists.mp h
      simp [phase1Loop, phase1Step, hpe, ih]

/-- concrete sdo addresses used in the resolver scenarios (CiA-402-style
object numbers; the values are arbitrary). -/
def sdoA : Sdo := Sdo.subitem 24640 0

def sdoB : Sdo := Sdo.subitem 24641 0

/-- a pre-mapped item of a fixed pdo that no requirement asks for. -/
def sdoX : Sdo := Sdo.subitem 9999 0

/-- C2.  The phase-1 loop of `solve` does not terminate as soon as one fixed
(non-configurable) pdo exists: the selection filters only on membership in
`configurable` and `max_by_key` over a nonempty candidate list always yields
a candidate, while the loop body only inserts into `used`, which the
selection never reads — so with the single fixed carrier 7 in the inventory
(and nothing required at all), the loop is still running after any number of
iterations, from any `used` state. -/
theorem phase1_loop_never_terminates :
    ∀ fuel used, phase1Loop [(7, [])] [] [] fuel used = none :=
  phase1Loop_none_of_select_isSome [(7, [])] [] [] (by decide)

/-- C6 counterexample semantics: with required item `sdoA` unreached and the
fixed carrier 3 containing only the unrelated item `sdoX`, one iteration of
phase 1 still selects carrier 3 and inserts it into `used`, although the
carrier newly covers zero unreached required items (the correct
newly-covered count, a filter over its item list, is empty): the selection
key counts all items instead of the newly-covered ones and the body inserts
unconditionally. -/
theorem phase1_inserts_zero_coverage_carrier :
    phase1Step [(3, [sdoX])] [] [(sdoA, false)] [] = some [3] ∧
    List.filter (fun e => reachedGet [(sdoA, false)] e = some false) [sdoX] = [] := by
  refine ⟨by decide, by decide⟩

/-- C5.  With the fixed carrier 1 (empty item list), no configurable
carriers and the single requirement `sdoA`, the claim demands the
`LackOfPdo` failure (one unreached requirement, zero configurable capacity),
but `solve` never returns at all: phase 1 keeps re-selecting carrier 1
forever, so for every fuel bound the run is still inside the phase-1 loop
and no error is ever raised. -/
theorem solve_diverges_instead_of_lack_of_pdo :
    ∀ fuel, solveWith fuel [(1, [])] [] [] [sdoA] = .diverge := by
  intro fuel
  have h := phase1Loop_none_of_select_isSome [(1, [])] [] [(sdoA, false)]
    (by decide) fuel []
  simp [solveWith, h]

/-- C4.  Two runs of `solve` on the same logical input — required items
{`sdoA`, `sdoB`} (the two `reached`-map iteration orders are permutations of
one another), configurable carriers 1 and 2 of one slot each, one sync
manager of capacity 2 — produce different mapping solutions: the run whose
`reached` map iterates `sdoA` first places `sdoA` in carrier 1 and `sdoB` in
carrier 2, the other run swaps them, so the per-item positions differ
between runs. -/
theorem solve_depends_on_hash_order :
    ([sdoA, sdoB] : List Sdo).Perm [sdoB, sdoA] ∧
    solveWith 1 [(1, [sdoX]), (2, [sdoX])] [1, 2] [(0, 2, [])] [sdoA, sdoB] =
      .ok [1, 2] [(1, [sdoA]), (2, [sdoB])] [(0, 2, [1, 2])] ∧
    solveWith 1 [(1, [sdoX]), (2, [sdoX])] [1, 2] [(0, 2, [])] [sdoB, sdoA] =
      .ok [1, 2] [(1, [sdoB]), (2, [sdoA])] [(0, 2, [1, 2])] ∧
    solveWith 1 [(1, [sdoX]), (2, [sdoX])] [1, 2] [(0, 2, [])] [sdoA, sdoB] ≠
      solveWith 1 [(1, [sdoX]), (2, [sdoX])] [1, 2] [(0, 2, [])] [sdoB, sdoA] := by
  refine ⟨List.Perm.swap _ _ _, by decide, by decide, by decide⟩

/-! ## Field retrieval (src/config.rs, `MasterConfigurator::request`) -/

/-- `dictionnary: HashMap<Sdo, (u8, TypeId)>` (config.rs line 27): per sdo,
its bit length — the same number that `resolve` passes to
`add_pdo_mapping` as `PdoEntryInfo::bit_len`, documented in types.rs line
450 as the bit length of the mapped data — and its `TypeId`. -/
def lookupDict : List (Sdo × Nat × TypeId) → Sdo → Option (Nat × TypeId)
| [], _ => none
| (k, v) :: rest, sdo => if k = sdo then some v else lookupDict rest sdo

/-- `ConfigEntry::offsets: HashMap<Sdo, (usize, u8)>` (config.rs line 37):
the (byte, bit) offset that `resolve` records from `register_pdo_entry`. -/
def lookupOffsets : List (Sdo × Nat × Nat) → Sdo → Option (Nat × Nat)
| [], _ => none
| (k, v) :: rest, sdo => if k = sdo then some v else lookupOffsets rest sdo

/-- per-slave offset tables (`self.entries[&slave].offsets`). -/
def lookupSlaveOffsets : List (Nat × List (Sdo × Nat × Nat)) → Nat →
    Option (List (Sdo × Nat × Nat))
| [], _ => none
| (k, v) :: rest, slave => if k = slave then some v else lookupSlaveOffsets rest slave

/-- mirror of `MasterConfigurator::request` (config.rs lines 97-101):
`assert!(T::id() == self.dictionnary[&sdo].1)`, look up the recorded
`(byte, bit)` offset, and return `Field::new(byte, bit,
self.dictionnary[&sdo].0.into())` — the field's `bitlen` is the dictionary's
bit length.  `none` models the panics (missing key, failed assert). -/
def request (dict : List (Sdo × Nat × TypeId))
    (offsets : List (Nat × List (Sdo × Nat × Nat)))
    (t : DTy) (slave : Nat) (sdo : Sdo) : Option DField :=
  match lookupDict dict sdo with
  | none => none
  | some (bl, tid) =>
    if t.id = tid then
      match lookupSlaveOffsets offsets slave with
      | none => none
      | some offs =>
        match lookupOffsets offs sdo with
        | none => none
        | some (byte, bit) => some ⟨byte, bit, bl⟩
    else none

/-- C3.  A requirement for a `u32` sdo whose dictionary entry carries the bit
length 32 (the number `resolve` itself uses as `PdoEntryInfo::bit_len`) and
whose resolved offset is (byte 0, bit 0) yields, through `request`, the
field `{byte 0, bit 0, bitlen 32}` — its own type assert passes — yet both
`get` and `set` on that field fail the codec's width assertion even on a
perfectly sized 4-byte buffer, because the codec compares `bitlen` against
`size_of::<u32>() = 4`, a byte count; and no supported type escapes, since a
bit length `8 * size` never equals the `size` the codec demands. -/
theorem request_field_fails_codec :
    request [(sdoA, (32, .U32))] [(0, [(sdoA, (0, 0))])] .u32 0 sdoA =
      some ⟨0, 0, 32⟩ ∧
    DField.get .u32 ⟨0, 0, 32⟩ [0, 0, 0, 0] = none ∧
    DField.set .u32 ⟨0, 0, 32⟩ [0, 0, 0, 0] 7 = none ∧
    (∀ t : DTy, 8 * t.size ≠ t.size) := by
  refine ⟨by decide, by decide, by decide, fun t => ?_⟩
  cases t <;> decide

end Ethercat
